import Mathlib

/-!
# Verification of the hdi-mac `Mounter` against its specification

This file gives a shallow embedding, in Lean 4, of the `Mounter` class of the
hdi-mac package (`src/mounter.ts`) and of the shutdown-hook registry
(`src/util.ts`), and proves (or refutes) the specified properties of:

* the file-argument sanitizer `_fileArg`;
* the attach argument builder (inside `Mounter.attach`);
* the attach-output plist parser `_parseDevices`;
* the attach runner `_runAttach` (exit-code handling);
* the root-device selector `_findRootDevice`;
* the eject capability produced by `_createEject`;
* the constructor default for the `hdiutil` tool path;
* the process shutdown-hook registry (`shutdownHook` / `shutdownUnhook` /
  `exitHandler`).

External effects (spawning the tool, XML decoding) are represented by explicit
parameters: the exit code of the spawned process, an abstract view of the
stdout text (either malformed XML or a decoded plist value tree), and a log of
external eject invocations.
-/

namespace HdiMac

/-! ## Data model: devices and option objects -/

/-- One entry of the `system-entities` array, `IMounterDevice` in the source.
Optional fields are `Option String`: `none` models an absent field, which the
source distinguishes from a field set to the empty string. -/
structure IMounterDevice where
  devEntry : String
  potentiallyMountable : Bool
  contentHint : Option String := none
  unmappedContentHint : Option String := none
  volumeKind : Option String := none
  mountPoint : Option String := none
  deriving DecidableEq, Repr

/-- `IMounterAttachOptions`: both fields are optional booleans
(`undefined` is modelled as `none`). -/
structure IMounterAttachOptions where
  readonly : Option Bool := none
  nobrowse : Option Bool := none
  deriving DecidableEq, Repr

/-- `IMounterEjectOptions`. -/
structure IMounterEjectOptions where
  force : Option Bool := none
  deriving DecidableEq, Repr

/-- `IMounterOptions`: the `hdiutil` field may be a string, `null` or
`undefined` (both modelled as `none`). -/
structure IMounterOptions where
  hdiutil : Option String := none
  deriving DecidableEq, Repr

/-- JavaScript truthiness of an optional boolean: only `some true` is truthy
(`undefined`, `null` and `false` are all falsy). -/
def optTruthy : Option Bool → Bool
  | some b => b
  | none => false

/-- JavaScript truthiness of an optional string: `null`/`undefined` and the
empty string are falsy, every other string is truthy. -/
def strTruthy : Option String → Bool
  | some s => s ≠ ""
  | none => false

/-! ## Constructor: tool-path default

Source: `this.hdiutil = (options ? options.hdiutil : null) || 'hdiutil';`.
The `||` operator replaces any falsy left operand (here: `null`, `undefined`
or the empty string) with the default. -/

/-- JavaScript `v || dflt` for an optional string `v`: the default is used when
`v` is `null`/`undefined` or the empty string (all falsy). -/
def jsOrString (v : Option String) (dflt : String) : String :=
  match v with
  | none => dflt
  | some s => if s = "" then dflt else s

/-- The `hdiutil` field computed by the `Mounter` constructor from its
(optional) options argument. -/
def mounterHdiutil (options : Option IMounterOptions) : String :=
  jsOrString (match options with | some o => o.hdiutil | none => none) "hdiutil"

/-! ## File-argument sanitizer

Source (`Mounter._fileArg`):
`return file.charAt(0) === '-' ? './' + file : file;`
(`charAt(0)` of the empty string is `''`, which is not `'-'`). -/

/-- `Mounter._fileArg`: prepend `./` exactly when the first character is `-`
(`file.data.head?` is the first character of the string, if any). -/
def fileArg (file : String) : String :=
  if file.data.head? = some '-' then "./" ++ file else file

/-! ## Argument builders

Source (`Mounter.attach`): starts from `['attach', '-plist']`, pushes
`'-readonly'` / `'-nobrowse'` when the options object is present and the
corresponding field is truthy, then pushes the sanitized file argument.
Source (`Mounter.eject`): starts from `['eject']`, pushes `'-force'` when
present and truthy, then the sanitized file argument. -/

/-- The argument list assembled by `Mounter.attach` before spawning. -/
def argsAttach (file : String) (options : Option IMounterAttachOptions) :
    List String :=
  ["attach", "-plist"]
    ++ (match options with
        | none => []
        | some o =>
          (if optTruthy o.readonly then ["-readonly"] else [])
            ++ (if optTruthy o.nobrowse then ["-nobrowse"] else []))
    ++ [fileArg file]

/-- The argument list assembled by `Mounter.eject` before spawning. -/
def argsEject (file : String) (options : Option IMounterEjectOptions) :
    List String :=
  ["eject"]
    ++ (match options with
        | none => []
        | some o => if optTruthy o.force then ["-force"] else [])
    ++ [fileArg file]

/-! ## Root-device selector

Source (`Mounter._findRootDevice`):
```
let r = null;
for (const device of devices) {
  if (r === null || r.devEntry.length > device.devEntry.length) {
    r = device;
  }
}
return r;
```
-/

/-- One step of the `_findRootDevice` loop body. -/
def findRootStep (r : Option IMounterDevice) (device : IMounterDevice) :
    Option IMounterDevice :=
  match r with
  | none => some device
  | some b =>
    if b.devEntry.length > device.devEntry.length then some device else some b

/-- `Mounter._findRootDevice`: the loop over the device list. -/
def findRootDevice (devices : List IMounterDevice) : Option IMounterDevice :=
  devices.foldl findRootStep none

/-! ## Plist value trees and the attach-output parser

The XML plist is decoded (by the external `@shockpkg/plist-dom` library) into
a tree of dictionaries, arrays, strings, booleans and other leaf values;
`PLValue` is that tree. `Mounter._parseDevices` walks it with `castAs` (throws
on a type mismatch), `getValue` (throws when the key is absent) and `get`
(returns `null` when the key is absent). -/

/-- A decoded plist value tree. `vinteger` and `vreal` stand for the leaf
types other than string and boolean (integer, real, date, data): the parser
only ever distinguishes dict / array / string / boolean from everything
else. -/
inductive PLValue where
  | vdict : List (String × PLValue) → PLValue
  | varray : List PLValue → PLValue
  | vstring : String → PLValue
  | vboolean : Bool → PLValue
  | vinteger : Int → PLValue
  | vreal : Int → PLValue

/-- Errors surfaced while interpreting the attach stdout, collectively the
spec's `ParseError`: a failed XML decode (`plist.fromXml` throwing), a failed
`castAs` (type mismatch) or a failed `getValue` (absent required key). -/
inductive ParseError where
  | malformedXml : ParseError
  | castError : String → ParseError
  | missingKey : String → ParseError
  deriving DecidableEq, Repr

/-- `ValueDict.get`: look a key up, `none` when absent (first binding wins,
as in a plist dictionary). -/
def dictGet (kvs : List (String × PLValue)) (key : String) : Option PLValue :=
  match kvs with
  | [] => none
  | kv :: rest => if kv.1 = key then some kv.2 else dictGet rest key

/-- `ValueDict.getValue`: like `dictGet` but throws when the key is absent. -/
def dictGetValue (kvs : List (String × PLValue)) (key : String) :
    Except ParseError PLValue :=
  match dictGet kvs key with
  | some v => .ok v
  | none => .error (.missingKey key)

/-- `castAs(ValueDict)`. -/
def castAsDict : PLValue → Except ParseError (List (String × PLValue))
  | .vdict kvs => .ok kvs
  | _ => .error (.castError "dict")

/-- `castAs(ValueArray)`. -/
def castAsArray : PLValue → Except ParseError (List PLValue)
  | .varray vs => .ok vs
  | _ => .error (.castError "array")

/-- `castAs(ValueString)`. -/
def castAsString : PLValue → Except ParseError String
  | .vstring s => .ok s
  | _ => .error (.castError "string")

/-- `castAs(ValueBoolean)`. -/
def castAsBoolean : PLValue → Except ParseError Bool
  | .vboolean b => .ok b
  | _ => .error (.castError "boolean")

/-- The per-optional-key step of `_parseDevices`: `dict.get(key)` followed by
`if (value) castAs(ValueString)` — absent keys yield `none`, present keys must
be strings. (Any present plist value object is truthy in JavaScript.) -/
def optionalString (kvs : List (String × PLValue)) (key : String) :
    Except ParseError (Option String) :=
  match dictGet kvs key with
  | none => .ok none
  | some v => (castAsString v).map some

/-- The body of the `_parseDevices` loop for one element of the
`system-entities` array, in source order: cast the element to a dict, extract
`dev-entry` (string, required) and `potentially-mountable` (boolean,
required), then the four optional string fields. -/
def parseDevice (v : PLValue) : Except ParseError IMounterDevice := do
  let dict ← castAsDict v
  let devEntry ← castAsString (← dictGetValue dict "dev-entry")
  let potentiallyMountable ←
    castAsBoolean (← dictGetValue dict "potentially-mountable")
  let contentHint ← optionalString dict "content-hint"
  let unmappedContentHint ← optionalString dict "unmapped-content-hint"
  let volumeKind ← optionalString dict "volume-kind"
  let mountPoint ← optionalString dict "mount-point"
  return { devEntry, potentiallyMountable, contentHint, unmappedContentHint,
           volumeKind, mountPoint }

/-- The `_parseDevices` loop over the `system-entities` array: devices are
accumulated in order and the first failure aborts the parse. -/
def parseEntities : List PLValue → Except ParseError (List IMounterDevice)
  | [] => .ok []
  | v :: rest => do
    let d ← parseDevice v
    let ds ← parseEntities rest
    return d :: ds

/-- `Mounter._parseDevices` applied to an already-decoded plist root:
`plist.valueCastAs(ValueDict).getValue('system-entities').castAs(ValueArray)`
then the per-entity loop. -/
def parseDevices (root : PLValue) : Except ParseError (List IMounterDevice) := do
  let rootDict ← castAsDict root
  let entities ← castAsArray (← dictGetValue rootDict "system-entities")
  parseEntities entities

/-! ## The attach runner

`Mounter._runAttach` buffers stdout, awaits the exit code, throws
`Attach failed: hdiutil exit code: <code>` when the code is truthy (non-null
and non-zero), and otherwise parses the buffered stdout. The XML decode
performed by `plist.fromXml` is external; stdout is therefore modelled
abstractly as either malformed XML (which includes the empty string — the
decoder throws on it) or a decoded value tree. -/

/-- Abstract view of the captured stdout text: either it does not decode as an
XML plist (the empty string in particular does not), or it decodes to a value
tree. -/
inductive StdoutText where
  | malformed : StdoutText
  | plist : PLValue → StdoutText

/-- `plist.fromXml` followed by `_parseDevices`, on the abstract stdout. -/
def parseStdout : StdoutText → Except ParseError (List IMounterDevice)
  | .malformed => .error .malformedXml
  | .plist v => parseDevices v

/-- Errors surfaced by `attach`: the tool reported a failure exit code, or its
output did not parse. -/
inductive AttachError where
  | attachFailed : Int → AttachError
  | parse : ParseError → AttachError
  deriving DecidableEq, Repr

/-- The message attached to each `attach` error, as built in the source. -/
def attachErrorMessage : AttachError → String
  | .attachFailed code => "Attach failed: hdiutil exit code: " ++ toString code
  | .parse _ => "Error parsing hdiutil plist"

/-- JavaScript truthiness of the awaited exit code (`number | null`): truthy
iff non-null and non-zero. -/
def codeTruthy : Option Int → Bool
  | some c => c ≠ 0
  | none => false

/-- `Mounter._runAttach`, given the exit code the spawned process reported
(`none` models a `null` code) and the abstract stdout: a truthy code fails
with `attachFailed` without touching stdout; otherwise stdout is parsed. -/
def runAttach (code : Option Int) (stdout : StdoutText) :
    Except AttachError (List IMounterDevice) :=
  if codeTruthy code then
    .error (.attachFailed (code.getD 0))
  else
    (parseStdout stdout).mapError .parse

/-! ## The eject capability (`Mounter._createEject`)

Source:
```
const rootDev = this._findRootDevice(devices);
const rootDevPath = rootDev ? rootDev.devEntry : null;
let shutdownEjector = null;
const eject = async (options = null) => {
  if (shutdownEjector) {
    shutdownUnhook(shutdownEjector);
    shutdownEjector = null;
  }
  if (!rootDevPath) {
    return;
  }
  await this.eject(rootDevPath, options);
};
if (rootDevPath && ejectOnShutdown) {
  shutdownEjector = async () => { await eject(ejectOnShutdown); };
  shutdownHook(shutdownEjector);
}
return eject;
```
`rootDevPath` is a `const` captured by the closure; the only mutable state is
`shutdownEjector`. The model keeps both in an explicit state record, together
with whether the shutdown ejector is currently in the process-wide exit-hook
set, and logs every invocation of the external eject tool. -/

/-- The state captured and mutated by the eject closure: the (never
reassigned) `rootDevPath`, whether the closure's `shutdownEjector` variable is
non-null, and whether that ejector callback is currently registered in the
exit-hook set. -/
structure EjectCapState where
  rootDevPath : Option String
  shutdownEjector : Bool
  hookRegistered : Bool
  deriving DecidableEq, Repr

/-- One recorded invocation of the external eject tool
(`await this.eject(rootDevPath, options)`): the target device entry, the
options passed through, and whether the shutdown ejector was still registered
in the exit-hook set at the moment of the invocation. -/
structure EjectInvocation where
  target : String
  options : Option IMounterEjectOptions
  hookRegisteredAtCall : Bool
  deriving DecidableEq, Repr

/-- Errors surfaced by `Mounter.eject`: the tool reported a failure exit
code (`Eject failed: hdiutil exit code: <code>`). -/
inductive EjectError where
  | ejectFailed : Int → EjectError
  deriving DecidableEq, Repr

/-- `Mounter._createEject`: compute `rootDevPath` from the device list and
register the shutdown ejector when a truthy root path exists and eject-on-
shutdown options were supplied. -/
def createEject (devices : List IMounterDevice)
    (ejectOnShutdown : Option IMounterEjectOptions) : EjectCapState :=
  let rootDevPath :=
    match findRootDevice devices with
    | some rootDev => some rootDev.devEntry
    | none => none
  -- `if (rootDevPath && ejectOnShutdown) { shutdownEjector = ...; shutdownHook(...); }`
  let hooked := strTruthy rootDevPath && ejectOnShutdown.isSome
  { rootDevPath, shutdownEjector := hooked, hookRegistered := hooked }

/-- One call of the eject closure. `ejectExit` is the exit code the external
eject process reports if it is invoked (`none` models a `null` code). Returns
the state after the call, the external invocations it performed (zero or one)
and the call's outcome. -/
def ejectCall (s : EjectCapState) (options : Option IMounterEjectOptions)
    (ejectExit : Option Int) :
    EjectCapState × List EjectInvocation × Except EjectError Unit :=
  -- `if (shutdownEjector) { shutdownUnhook(shutdownEjector); shutdownEjector = null; }`
  let s1 :=
    if s.shutdownEjector then
      { s with shutdownEjector := false, hookRegistered := false }
    else s
  -- `if (!rootDevPath) { return; }`
  if strTruthy s1.rootDevPath then
    -- `await this.eject(rootDevPath, options);`
    let inv : EjectInvocation :=
      { target := s1.rootDevPath.getD ""
        options
        hookRegisteredAtCall := s1.hookRegistered }
    let outcome : Except EjectError Unit :=
      if codeTruthy ejectExit then .error (.ejectFailed (ejectExit.getD 0))
      else .ok ()
    (s1, [inv], outcome)
  else
    (s1, [], .ok ())

/-! ## The shutdown-hook registry (`src/util.ts`)

Source:
```
const exitHooks = new Set();
const exitHandler = async () => {
  if (!exitHooks.size) { return; }
  const list = [...exitHooks];
  exitHooks.clear();
  await Promise.all(list.map(async f => f()));
};
export function shutdownHook(callback) { ... exitHooks.add(callback); }
export function shutdownUnhook(callback) { exitHooks.delete(callback); }
```
A JavaScript `Set` iterates in insertion order, `add` is a no-op on an element
already present, and `delete` removes the element. The registry is modelled
as a duplicate-free list of callback identifiers in insertion order. -/

/-- `exitHooks.add`: append unless already present. -/
def shutdownHookAdd (s : List Nat) (c : Nat) : List Nat :=
  if c ∈ s then s else s ++ [c]

/-- `exitHooks.delete`: remove the element. -/
def shutdownUnhookDel (s : List Nat) (c : Nat) : List Nat :=
  s.erase c

/-- The `exitHandler` drain, with the callbacks' own behaviour made explicit:
`run` gives each callback's outcome when invoked, and `regs` lists the
registrations the invoked callbacks themselves perform (in order) while the
drain runs. Returns the registry after the drain, the snapshot of callbacks
invoked (in registry order) and the list of their individually collected
outcomes. When the registry is empty the handler returns at once. -/
def exitHandlerDrain (s : List Nat) (run : Nat → Except String Unit)
    (regs : List Nat) : List Nat × List Nat × List (Except String Unit) :=
  if s.isEmpty then (s, [], [])
  else
    -- `const list = [...exitHooks]; exitHooks.clear();` then the snapshot is
    -- executed; registrations made by the running callbacks land in the
    -- freshly cleared set.
    (regs.foldl shutdownHookAdd [], s, s.map run)

/-- Operations on the registry, for whole-trace reasoning: register a
callback, unregister one, or run the `exitHandler` drain (its payload lists
the registrations made by the invoked callbacks during that drain). -/
inductive RegOp where
  | hook : Nat → RegOp
  | unhook : Nat → RegOp
  | drain : List Nat → RegOp
  deriving DecidableEq, Repr

/-- Run a trace of registry operations from registry `s`, accumulating the
log of all invocations performed by the drains, in order. -/
def regRun (run : Nat → Except String Unit) :
    List Nat → List Nat → List RegOp → List Nat × List Nat
  | s, log, [] => (s, log)
  | s, log, .hook c :: ops => regRun run (shutdownHookAdd s c) log ops
  | s, log, .unhook c :: ops => regRun run (shutdownUnhookDel s c) log ops
  | s, log, .drain regs :: ops =>
    let d := exitHandlerDrain s run regs
    regRun run d.1 (log ++ d.2.1) ops

/-- How many times a trace registers callback `c` (counting registrations
performed inside drains). -/
def hookOpCount (c : Nat) : List RegOp → Nat
  | [] => 0
  | .hook d :: ops => (if d = c then 1 else 0) + hookOpCount c ops
  | .unhook _ :: ops => hookOpCount c ops
  | .drain regs :: ops => regs.count c + hookOpCount c ops

/-! ## Helper lemmas -/

/-- The sanitized file argument never starts with a dash. -/
theorem fileArg_head_ne_dash (file : String) :
    (fileArg file).data.head? ≠ some '-' := by
  unfold fileArg
  by_cases h : file.data.head? = some '-'
  · rw [if_pos h, String.data_append]
    intro hc
    simp at hc
  · rw [if_neg h]
    exact h

/-- A string that starts with a dash (such as a CLI flag) is never equal to a
sanitized file argument. -/
theorem flag_ne_fileArg (flag file : String)
    (h : flag.data.head? = some '-') : flag ≠ fileArg file := by
  intro he
  exact fileArg_head_ne_dash file (he ▸ h)

/-! ## C7: the file-argument sanitizer -/

/-- C7: `_fileArg` is a total function on strings: an input whose first
character is `-` comes back with `./` prepended, and any other input
(the empty string included) comes back unchanged. -/
theorem fileArg_sanitizes (file : String) :
    (file.data.head? = some '-' → fileArg file = "./" ++ file) ∧
    (file.data.head? ≠ some '-' → fileArg file = file) ∧
    fileArg "" = "" := by
  refine ⟨fun h => ?_, fun h => ?_, rfl⟩
  · simp [fileArg, h]
  · simp [fileArg, h]

/-- Witness for C7 at concrete inputs starting and not starting with `-`. -/
theorem fileArg_sanitizes_witness :
    fileArg "-test.dmg" = "./-test.dmg" ∧ fileArg "test.dmg" = "test.dmg" :=
  ⟨(fileArg_sanitizes "-test.dmg").1 (by decide),
   (fileArg_sanitizes "test.dmg").2.1 (by decide)⟩

/-! ## C10: the constructor's tool-path default -/

/-- C10: constructing a `Mounter` with no options object, a `null`/`undefined`
`hdiutil` field, or an empty-string `hdiutil` field yields the default tool
path `"hdiutil"`; any non-empty string is used as given. -/
theorem mounterHdiutil_default :
    mounterHdiutil none = "hdiutil" ∧
    mounterHdiutil (some ⟨none⟩) = "hdiutil" ∧
    mounterHdiutil (some ⟨some ""⟩) = "hdiutil" ∧
    (∀ s : String, s ≠ "" → mounterHdiutil (some ⟨some s⟩) = s) := by
  refine ⟨rfl, rfl, rfl, fun s hs => ?_⟩
  simp [mounterHdiutil, jsOrString, hs]

/-- Witness for C10: the empty string falls back to the default while a
non-empty path is kept. -/
theorem mounterHdiutil_default_witness :
    mounterHdiutil (some ⟨some ""⟩) = "hdiutil" ∧
    mounterHdiutil (some ⟨some "/usr/bin/hdiutil"⟩) = "/usr/bin/hdiutil" :=
  ⟨mounterHdiutil_default.2.2.1,
   mounterHdiutil_default.2.2.2 "/usr/bin/hdiutil" (by decide)⟩

/-! ## C5: attach failure surfacing -/

/-- C5: a truthy (non-zero, non-null) exit code makes `attach` fail with
`attachFailed` carrying that code — whatever stdout holds, it is never
parsed and no device list is produced — and the error message spells the
code out; with a zero exit code, stdout that is empty/unparsable or fails
structural validation surfaces a `ParseError` instead of an empty device
list. -/
theorem runAttach_failure_surfacing :
    (∀ (c : Int), c ≠ 0 → ∀ stdout : StdoutText,
      runAttach (some c) stdout = .error (.attachFailed c) ∧
      attachErrorMessage (.attachFailed c) =
        "Attach failed: hdiutil exit code: " ++ toString c) ∧
    (runAttach (some 0) .malformed = .error (.parse .malformedXml)) ∧
    (∀ (stdout : StdoutText) (e : ParseError), parseStdout stdout = .error e →
      runAttach (some 0) stdout = .error (.parse e)) ∧
    (∀ (stdout : StdoutText) (devices : List IMounterDevice),
      runAttach (some 0) stdout = .ok devices → parseStdout stdout = .ok devices) := by
  refine ⟨fun c hc stdout => ⟨?_, rfl⟩, rfl, fun stdout e he => ?_, fun stdout devices h => ?_⟩
  · simp [runAttach, codeTruthy, hc]
  · simp [runAttach, codeTruthy, he, Except.mapError]
  · simp [runAttach, codeTruthy, Except.mapError] at h
    cases hp : parseStdout stdout with
    | ok ds => rw [hp] at h; simpa using h
    | error e => rw [hp] at h; simp [Except.mapError] at h

/-- Witness for C5: exit code `1` fails with the code in the error and the
message; exit code `0` with unparsable stdout fails with a `ParseError`. -/
theorem runAttach_failure_surfacing_witness :
    (runAttach (some 1) .malformed = .error (.attachFailed 1) ∧
      attachErrorMessage (.attachFailed 1) =
        "Attach failed: hdiutil exit code: " ++ toString (1 : Int)) ∧
    runAttach (some 0) .malformed = .error (.parse .malformedXml) :=
  ⟨runAttach_failure_surfacing.1 1 (by decide) .malformed,
   runAttach_failure_surfacing.2.1⟩

/-! ## C6: attach argument construction -/

/-- An optional boolean is truthy exactly when it is `some true`. -/
theorem optTruthy_eq_true_iff (ob : Option Bool) :
    optTruthy ob = true ↔ ob = some true := by
  cases ob with
  | none => simp [optTruthy]
  | some b => simp [optTruthy]

/-- C6: the built attach argument list is exactly `attach -plist`, then
`-readonly` iff the readonly option is `true`, then `-nobrowse` iff the
nobrowse option is `true`, then the sanitized file argument last; a flag is
present iff its option is literally `true` (not `false`, not unset, options
object present). -/
theorem argsAttach_exact (file : String) (options : Option IMounterAttachOptions) :
    (argsAttach file options =
      ["attach", "-plist"]
        ++ (if optTruthy (options.bind IMounterAttachOptions.readonly)
            then ["-readonly"] else [])
        ++ (if optTruthy (options.bind IMounterAttachOptions.nobrowse)
            then ["-nobrowse"] else [])
        ++ [fileArg file]) ∧
    ("-readonly" ∈ argsAttach file options ↔
      ∃ o, options = some o ∧ o.readonly = some true) ∧
    ("-nobrowse" ∈ argsAttach file options ↔
      ∃ o, options = some o ∧ o.nobrowse = some true) ∧
    ((argsAttach file options).getLast? = some (fileArg file)) ∧
    ((argsAttach file options).take 2 = ["attach", "-plist"]) := by
  have hro := flag_ne_fileArg "-readonly" file (by decide)
  have hnb := flag_ne_fileArg "-nobrowse" file (by decide)
  refine ⟨?_, ?_, ?_, ?_, ?_⟩
  · rcases options with _ | o
    · rfl
    · simp [argsAttach, Option.bind, List.append_assoc]
  · rcases options with _ | o
    · simp [argsAttach, hro]
    · rw [show (∃ o2, some o = some o2 ∧ o2.readonly = some true) ↔
          o.readonly = some true by simp]
      rw [← optTruthy_eq_true_iff]
      by_cases hr : optTruthy o.readonly <;>
        by_cases hn : optTruthy o.nobrowse <;>
          simp [argsAttach, hr, hn, hro]
  · rcases options with _ | o
    · simp [argsAttach, hnb]
    · rw [show (∃ o2, some o = some o2 ∧ o2.nobrowse = some true) ↔
          o.nobrowse = some true by simp]
      rw [← optTruthy_eq_true_iff]
      by_cases hr : optTruthy o.readonly <;>
        by_cases hn : optTruthy o.nobrowse <;>
          simp [argsAttach, hr, hn, hnb]
  · simp only [argsAttach]
    exact List.getLast?_concat _
  · rcases options with _ | o
    · rfl
    · by_cases hr : optTruthy o.readonly <;>
        by_cases hn : optTruthy o.nobrowse <;>
          simp [argsAttach, hr, hn]

/-- Witness for C6: concrete argument lists for a readonly-only attach and a
bare attach of a dash-prefixed file. -/
theorem argsAttach_exact_witness :
    argsAttach "-img.dmg" (some ⟨some true, none⟩) =
      ["attach", "-plist", "-readonly", "./-img.dmg"] ∧
    argsAttach "img.dmg" (some ⟨some false, some false⟩) =
      ["attach", "-plist", "img.dmg"] :=
  ⟨(argsAttach_exact "-img.dmg" (some ⟨some true, none⟩)).1.trans (by decide),
   (argsAttach_exact "img.dmg" (some ⟨some false, some false⟩)).1.trans (by decide)⟩

/-! ## C3: root-device selection -/

/-- Characterization of the `_findRootDevice` loop from an already-set best
candidate `b`: the final result is the earliest element of `b :: xs` whose
`devEntry` is strictly shorter than every element before it and no longer
than every element of the list. -/
theorem foldl_findRootStep_earliest (xs : List IMounterDevice)
    (b : IMounterDevice) :
    ∃ r pre post,
      List.foldl findRootStep (some b) xs = some r ∧
      b :: xs = pre ++ r :: post ∧
      (∀ d ∈ pre, r.devEntry.length < d.devEntry.length) ∧
      (∀ d ∈ b :: xs, r.devEntry.length ≤ d.devEntry.length) := by
  induction xs generalizing b with
  | nil =>
    refine ⟨b, [], [], rfl, rfl, by simp, ?_⟩
    intro d hd
    simp at hd
    simp [hd]
  | cons x xs ih =>
    by_cases hbx : x.devEntry.length < b.devEntry.length
    · -- the candidate is strictly shorter: the loop replaces the best with x
      obtain ⟨r, pre, post, hfold, hdecomp, hpre, hall⟩ := ih x
      have hstep : List.foldl findRootStep (some b) (x :: xs) =
          List.foldl findRootStep (some x) xs := by
        simp [List.foldl_cons, findRootStep, hbx]
      have hrx : r.devEntry.length ≤ x.devEntry.length :=
        hall x (List.mem_cons_self x xs)
      refine ⟨r, b :: pre, post, hstep.trans hfold, ?_, ?_, ?_⟩
      · simpa using congrArg (List.cons b) hdecomp
      · intro d hd
        rcases List.mem_cons.mp hd with hdb | hdp
        · exact hdb ▸ lt_of_le_of_lt hrx hbx
        · exact hpre d hdp
      · intro d hd
        rcases List.mem_cons.mp hd with hdb | hdx
        · exact hdb ▸ le_of_lt (lt_of_le_of_lt hrx hbx)
        · exact hall d hdx
    · -- the candidate is not strictly shorter: the best is kept
      obtain ⟨r, pre, post, hfold, hdecomp, hpre, hall⟩ := ih b
      have hstep : List.foldl findRootStep (some b) (x :: xs) =
          List.foldl findRootStep (some b) xs := by
        simp [List.foldl_cons, findRootStep, hbx]
      have hble : b.devEntry.length ≤ x.devEntry.length := le_of_not_lt hbx
      have hrb : r.devEntry.length ≤ b.devEntry.length :=
        hall b (List.mem_cons_self b xs)
      cases pre with
      | nil =>
        -- the best of b :: xs is b itself: keep it, in front of x
        simp only [List.nil_append] at hdecomp
        have hrb2 : b = r := by injection hdecomp with h1 h2
        refine ⟨r, [], x :: xs, hstep.trans hfold, ?_, by simp, ?_⟩
        · simp [← hrb2]
        · intro d hd
          rcases List.mem_cons.mp hd with hdb | hdx
          · exact hdb ▸ hall b (List.mem_cons_self b xs)
          · rcases List.mem_cons.mp hdx with hdx2 | hdxs
            · exact hdx2 ▸ le_trans hrb hble
            · exact hall d (List.mem_cons_of_mem b hdxs)
      | cons p pre =>
        -- the best lies inside xs, strictly shorter than b (and hence x)
        rw [List.cons_append] at hdecomp
        have hpb : b = p := by injection hdecomp with h1 h2
        have hxs : xs = pre ++ r :: post := by injection hdecomp with h1 h2
        have hrblt : r.devEntry.length < b.devEntry.length := by
          rw [hpb]
          exact hpre p (List.mem_cons_self p pre)
        refine ⟨r, b :: x :: pre, post, hstep.trans hfold, ?_, ?_, ?_⟩
        · simp [hxs]
        · intro d hd
          rcases List.mem_cons.mp hd with hdb | hdx
          · exact hdb ▸ hrblt
          · rcases List.mem_cons.mp hdx with hdx2 | hdpre
            · exact hdx2 ▸ lt_of_lt_of_le hrblt hble
            · exact hpre d (List.mem_cons_of_mem p hdpre)
        · intro d hd
          rcases List.mem_cons.mp hd with hdb | hdx
          · exact hdb ▸ le_of_lt hrblt
          · rcases List.mem_cons.mp hdx with hdx2 | hdxs
            · exact hdx2 ▸ le_of_lt (lt_of_lt_of_le hrblt hble)
            · exact hall d (List.mem_cons_of_mem b hdxs)

/-- C3: `_findRootDevice` returns no device on the empty sequence, and
otherwise the earliest device whose `devEntry` length is strictly minimal
(a later device only displaces the current best by being strictly shorter, so
equal lengths keep the earlier device); on the example devEntry sequence
`/dev/disk42s1`, `/dev/disk42`, `/dev/disk42s2` it selects `/dev/disk42`. -/
theorem findRootDevice_earliest_shortest :
    (findRootDevice [] = none) ∧
    (∀ devices : List IMounterDevice, devices ≠ [] →
      ∃ r pre post,
        findRootDevice devices = some r ∧
        devices = pre ++ r :: post ∧
        (∀ d ∈ pre, r.devEntry.length < d.devEntry.length) ∧
        (∀ d ∈ devices, r.devEntry.length ≤ d.devEntry.length)) ∧
    (findRootDevice
        [⟨"/dev/disk42s1", true, none, none, none, none⟩,
         ⟨"/dev/disk42", false, none, none, none, none⟩,
         ⟨"/dev/disk42s2", true, none, none, none, none⟩] =
      some ⟨"/dev/disk42", false, none, none, none, none⟩) := by
  refine ⟨rfl, ?_, by decide⟩
  intro devices hne
  cases devices with
  | nil => exact absurd rfl hne
  | cons b xs =>
    obtain ⟨r, pre, post, hfold, hdecomp, hpre, hall⟩ :=
      foldl_findRootStep_earliest xs b
    exact ⟨r, pre, post, hfold, hdecomp, hpre, fun d hd => hall d hd⟩

/-- Witness for C3: the concrete three-device example, selected through the
general characterization. -/
theorem findRootDevice_earliest_shortest_witness :
    ∃ r pre post,
      findRootDevice
          [⟨"/dev/disk42s1", true, none, none, none, none⟩,
           ⟨"/dev/disk42", false, none, none, none, none⟩,
           ⟨"/dev/disk42s2", true, none, none, none, none⟩] = some r ∧
      [⟨"/dev/disk42s1", true, none, none, none, none⟩,
       ⟨"/dev/disk42", false, none, none, none, none⟩,
       ⟨"/dev/disk42s2", true, none, none, none, none⟩] = pre ++ r :: post ∧
      (∀ d ∈ pre, r.devEntry.length < d.devEntry.length) ∧
      (∀ d ∈ [(⟨"/dev/disk42s1", true, none, none, none, none⟩ : IMounterDevice),
              ⟨"/dev/disk42", false, none, none, none, none⟩,
              ⟨"/dev/disk42s2", true, none, none, none, none⟩],
        r.devEntry.length ≤ d.devEntry.length) :=
  findRootDevice_earliest_shortest.2.1 _ (by decide)

/-! ## C1: the eject capability is **not** single-use

`rootDevPath` is a `const` captured by the eject closure and is never
cleared; the second of two sequential calls therefore invokes the external
eject tool again. Only the closure's `shutdownEjector` variable is
single-use. -/

/-- C1 counterexample: with the one-device list `/dev/disk42` (and no
shutdown auto-eject), the first eject call performs one external eject
invocation, yet the capability still has its target afterwards, and the
second call performs another external eject invocation — two in total,
refuting "exactly once" and "the second call does not invoke the external
eject". -/
theorem ejectCall_twice_invokes_twice :
    ((ejectCall (createEject [⟨"/dev/disk42", false, none, none, none, none⟩]
        none) none (some 0)).2.1.length = 1) ∧
    ((ejectCall (createEject [⟨"/dev/disk42", false, none, none, none, none⟩]
        none) none (some 0)).1.rootDevPath = some "/dev/disk42") ∧
    ((ejectCall
        (ejectCall (createEject [⟨"/dev/disk42", false, none, none, none, none⟩]
          none) none (some 0)).1 none (some 0)).2.1.length = 1) ∧
    ((ejectCall (createEject [⟨"/dev/disk42", false, none, none, none, none⟩]
        none) none (some 0)).2.1.length
      + (ejectCall
          (ejectCall (createEject [⟨"/dev/disk42", false, none, none, none, none⟩]
            none) none (some 0)).1 none (some 0)).2.1.length ≠ 1) := by
  decide

/-- `_createEject` when the device list selects a root device with a
non-empty (truthy) `devEntry`: the captured root path is that `devEntry` and
the shutdown ejector is created and registered exactly when eject-on-shutdown
options were passed. -/
theorem createEject_of_root (devices : List IMounterDevice)
    (ejOpt : Option IMounterEjectOptions) (r : IMounterDevice)
    (hr : findRootDevice devices = some r) (hne : r.devEntry ≠ "") :
    createEject devices ejOpt =
      ⟨some r.devEntry, ejOpt.isSome, ejOpt.isSome⟩ := by
  unfold createEject
  rw [hr]
  simp [strTruthy, hne]

/-- One call of the eject closure on a state whose root path is a non-empty
string: the shutdown ejector is unhooked first (when present), then the
external eject is invoked once on the root path with the given options, and
the outcome mirrors the external exit code. -/
theorem ejectCall_of_truthy (p : String) (hp : p ≠ "") (se hk : Bool)
    (opts : Option IMounterEjectOptions) (e : Option Int) :
    ejectCall ⟨some p, se, hk⟩ opts e =
      (⟨some p, false, if se then false else hk⟩,
       [⟨p, opts, if se then false else hk⟩],
       if codeTruthy e then .error (.ejectFailed (e.getD 0)) else .ok ()) := by
  unfold ejectCall
  cases se <;> simp [strTruthy, hp]

/-- C1 amended: when the device list selects a root device with a non-empty
`devEntry`, *every* call of the eject capability invokes the external eject
tool once on that root device — two sequential calls invoke it twice — the
capability's target survives each call, each call (the second included)
returns without error whenever the external eject exits zero, and only the
shutdown-hook registration is single-use: it is cleared by the first call. -/
theorem ejectCall_invokes_every_call (devices : List IMounterDevice)
    (ejOpt : Option IMounterEjectOptions) (r : IMounterDevice)
    (hr : findRootDevice devices = some r) (hne : r.devEntry ≠ "")
    (opts1 opts2 : Option IMounterEjectOptions) (e1 e2 : Option Int) :
    ((ejectCall (createEject devices ejOpt) opts1 e1).2.1 =
      [⟨r.devEntry, opts1, false⟩]) ∧
    ((ejectCall (createEject devices ejOpt) opts1 e1).1.rootDevPath =
      some r.devEntry) ∧
    ((ejectCall (ejectCall (createEject devices ejOpt) opts1 e1).1
        opts2 e2).2.1 = [⟨r.devEntry, opts2, false⟩]) ∧
    (e2 = some 0 →
      (ejectCall (ejectCall (createEject devices ejOpt) opts1 e1).1
        opts2 e2).2.2 = .ok ()) ∧
    ((ejectCall (createEject devices ejOpt) opts1 e1).1.shutdownEjector =
      false) ∧
    ((ejectCall (createEject devices ejOpt) opts1 e1).1.hookRegistered =
      false) := by
  have hcr := createEject_of_root devices ejOpt r hr hne
  have h1 := ejectCall_of_truthy r.devEntry hne ejOpt.isSome ejOpt.isSome
    opts1 e1
  have hfalse : (if ejOpt.isSome then false else ejOpt.isSome) = false := by
    cases ejOpt <;> simp
  have h2 := ejectCall_of_truthy r.devEntry hne false false opts2 e2
  refine ⟨?_, ?_, ?_, ?_, ?_, ?_⟩
  · simp [hcr, h1, hfalse]
  · simp [hcr, h1]
  · simp [hcr, h1, hfalse, h2]
  · intro he2
    subst he2
    simp [hcr, h1, hfalse, h2, codeTruthy]
  · simp [hcr, h1]
  · simp [hcr, h1]

/-- Witness for C1's amended theorem: the single-device list, a failing first
eject and a successful second one. -/
theorem ejectCall_invokes_every_call_witness :
    ((ejectCall (createEject [⟨"/dev/disk42", false, none, none, none, none⟩]
        (some ⟨some true⟩)) none (some 1)).2.1 =
      [⟨"/dev/disk42", none, false⟩]) ∧
    ((ejectCall (ejectCall (createEject
        [⟨"/dev/disk42", false, none, none, none, none⟩] (some ⟨some true⟩))
        none (some 1)).1 none (some 0)).2.2 = .ok ()) := by
  refine ⟨?_, ?_⟩
  · exact (ejectCall_invokes_every_call
      [⟨"/dev/disk42", false, none, none, none, none⟩] (some ⟨some true⟩)
      ⟨"/dev/disk42", false, none, none, none, none⟩ rfl (by decide)
      none none (some 1) (some 0)).1
  · exact (ejectCall_invokes_every_call
      [⟨"/dev/disk42", false, none, none, none, none⟩] (some ⟨some true⟩)
      ⟨"/dev/disk42", false, none, none, none, none⟩ rfl (by decide)
      none none (some 1) (some 0)).2.2.2.1 rfl

/-! ## C9: the shutdown ejector is unregistered before the external eject -/

/-- C9: starting from any capability `_createEject` returns, every external
eject invocation performed by the first two calls happens with the shutdown
callback already out of the exit-hook set, and after each call — whatever the
external eject's exit code, a failure included — the callback stays
unregistered and the closure never re-registers it. -/
theorem ejectCall_unhooks_before_eject (devices : List IMounterDevice)
    (ejOpt : Option IMounterEjectOptions)
    (opts1 opts2 : Option IMounterEjectOptions) (e1 e2 : Option Int) :
    (∀ inv ∈ (ejectCall (createEject devices ejOpt) opts1 e1).2.1,
      inv.hookRegisteredAtCall = false) ∧
    ((ejectCall (createEject devices ejOpt) opts1 e1).1.hookRegistered =
      false) ∧
    ((ejectCall (createEject devices ejOpt) opts1 e1).1.shutdownEjector =
      false) ∧
    (∀ inv ∈ (ejectCall (ejectCall (createEject devices ejOpt) opts1 e1).1
        opts2 e2).2.1, inv.hookRegisteredAtCall = false) ∧
    ((ejectCall (ejectCall (createEject devices ejOpt) opts1 e1).1
        opts2 e2).1.hookRegistered = false) := by
  have hflat : ∀ (rp : Option String) (b : Bool)
      (opts : Option IMounterEjectOptions) (e : Option Int),
      (∀ inv ∈ (ejectCall ⟨rp, b, b⟩ opts e).2.1,
        inv.hookRegisteredAtCall = false) ∧
      (ejectCall ⟨rp, b, b⟩ opts e).1.hookRegistered = false ∧
      (ejectCall ⟨rp, b, b⟩ opts e).1.shutdownEjector = false := by
    intro rp b opts e
    unfold ejectCall
    cases b <;> by_cases hsp : strTruthy rp = true <;> simp [hsp]
  have hce : ∃ (rp : Option String) (b : Bool),
      createEject devices ejOpt = ⟨rp, b, b⟩ := ⟨_, _, rfl⟩
  obtain ⟨rp, b, hce⟩ := hce
  rw [hce]
  obtain ⟨h1, h2, h3⟩ := hflat rp b opts1 e1
  refine ⟨h1, h2, h3, ?_, ?_⟩
  all_goals
    rcases hst : (ejectCall ⟨rp, b, b⟩ opts1 e1).1 with ⟨rp1, se1, hk1⟩
    rw [hst] at h2 h3
    simp at h2 h3
    subst h2
    subst h3
  · exact (hflat rp1 false opts2 e2).1
  · exact (hflat rp1 false opts2 e2).2.1

/-- Witness for C9: the one-device attach with shutdown auto-eject enabled and
a failing external eject. -/
theorem ejectCall_unhooks_before_eject_witness :
    ((ejectCall (createEject [⟨"/dev/disk42", false, none, none, none, none⟩]
        (some ⟨none⟩)) none (some 1)).1.hookRegistered = false) ∧
    (∀ inv ∈ (ejectCall (createEject
        [⟨"/dev/disk42", false, none, none, none, none⟩] (some ⟨none⟩))
        none (some 1)).2.1, inv.hookRegisteredAtCall = false) :=
  ⟨(ejectCall_unhooks_before_eject
      [⟨"/dev/disk42", false, none, none, none, none⟩] (some ⟨none⟩)
      none none (some 1) (some 1)).2.1,
   (ejectCall_unhooks_before_eject
      [⟨"/dev/disk42", false, none, none, none, none⟩] (some ⟨none⟩)
      none none (some 1) (some 1)).1⟩

/-! ## C2: the drain runs every callback, independently -/

/-- C2: the `exitHandler` drain invokes exactly the registered callbacks (the
snapshot `s`, in order), and collects each callback's outcome independently:
the outcome list is the pointwise image of the snapshot under the callback
behaviour, so the i-th collected outcome is that callback's own outcome; which
callbacks run does not depend on any callback's outcome, so one callback's
failure neither prevents a sibling from running nor alters the sibling's
collected outcome. -/
theorem exitHandlerDrain_runs_all (s : List Nat)
    (run runAlt : Nat → Except String Unit) (regs : List Nat) :
    ((exitHandlerDrain s run regs).2.1 = s) ∧
    ((exitHandlerDrain s run regs).2.2 = s.map run) ∧
    (∀ c ∈ s, c ∈ (exitHandlerDrain s run regs).2.1) ∧
    ((exitHandlerDrain s run regs).2.1 = (exitHandlerDrain s runAlt regs).2.1) ∧
    (∀ i : Nat, ((exitHandlerDrain s run regs).2.2)[i]? = (s[i]?).map run) := by
  unfold exitHandlerDrain
  by_cases hs : s.isEmpty
  · have hnil : s = [] := List.isEmpty_iff.mp hs
    subst hnil
    simp
  · simp [hs, List.getElem?_map]

/-- A drain behaviour for the C2 witness: callback `1` fails, the others
succeed. -/
def runBoom : Nat → Except String Unit :=
  fun c => if c = 1 then .error "boom" else .ok ()

/-- Witness for C2: with callbacks `[1, 2]` where `1` fails, both are invoked
and both outcomes are collected, the failure of `1` leaving `2`'s outcome
untouched. -/
theorem exitHandlerDrain_runs_all_witness :
    ((exitHandlerDrain [1, 2] runBoom []).2.1 = [1, 2]) ∧
    ((exitHandlerDrain [1, 2] runBoom []).2.2 = [.error "boom", .ok ()]) ∧
    ((2 : Nat) ∈ (exitHandlerDrain [1, 2] runBoom []).2.1) :=
  ⟨(exitHandlerDrain_runs_all [1, 2] runBoom runBoom []).1,
   ((exitHandlerDrain_runs_all [1, 2] runBoom runBoom []).2.1).trans (by rfl),
   (exitHandlerDrain_runs_all [1, 2] runBoom runBoom []).2.2.1 2 (by decide)⟩

/-! ## C8: each registered callback is invoked at most once -/

/-- Adding to the hook set increases the count of `c` by at most one, and
only when `c` itself is added. -/
theorem count_hookAdd_le (s : List Nat) (d c : Nat) :
    (shutdownHookAdd s d).count c ≤ s.count c + (if d = c then 1 else 0) := by
  unfold shutdownHookAdd
  by_cases hd : d ∈ s
  · rw [if_pos hd]
    by_cases hdc : d = c <;> simp [hdc]
  · rw [if_neg hd, List.count_append]
    have hone : List.count c [d] = if d = c then 1 else 0 := by
      by_cases hdc : d = c <;> simp [List.count_cons, hdc]
    rw [hone]

/-- Membership after folding registrations into a hook set. -/
theorem mem_foldl_hookAdd (regs : List Nat) (s : List Nat) (c : Nat)
    (h : c ∈ List.foldl shutdownHookAdd s regs) : c ∈ s ∨ c ∈ regs := by
  induction regs generalizing s with
  | nil => exact Or.inl (by simpa using h)
  | cons r rs ih =>
    rcases ih (shutdownHookAdd s r) (by simpa using h) with hs | hrs
    · unfold shutdownHookAdd at hs
      by_cases hr : r ∈ s
      · rw [if_pos hr] at hs
        exact Or.inl hs
      · rw [if_neg hr] at hs
        rcases List.mem_append.mp hs with h1 | h2
        · exact Or.inl h1
        · simp at h2
          exact Or.inr (by simp [h2])
    · exact Or.inr (List.mem_cons_of_mem r hrs)

/-- Counting after folding registrations into a hook set. -/
theorem count_foldl_hookAdd (regs : List Nat) (s : List Nat) (c : Nat) :
    (List.foldl shutdownHookAdd s regs).count c ≤ s.count c + regs.count c := by
  induction regs generalizing s with
  | nil => simp
  | cons r rs ih =>
    have h1 := ih (shutdownHookAdd s r)
    have h2 := count_hookAdd_le s r c
    have h3 : (r :: rs).count c = rs.count c + (if r = c then 1 else 0) := by
      by_cases hrc : r = c <;> simp [hrc, List.count_cons]
    calc (List.foldl shutdownHookAdd s (r :: rs)).count c
        = (List.foldl shutdownHookAdd (shutdownHookAdd s r) rs).count c := by
          rw [List.foldl_cons]
      _ ≤ (shutdownHookAdd s r).count c + rs.count c := h1
      _ ≤ s.count c + (if r = c then 1 else 0) + rs.count c := by omega
      _ = s.count c + (r :: rs).count c := by omega

/-- The log of invocations a trace produces counts each callback at most as
often as the trace registers it. -/
theorem regRun_count_le (run : Nat → Except String Unit) (ops : List RegOp)
    (s log : List Nat) (c : Nat) :
    ((regRun run s log ops).2).count c ≤
      log.count c + s.count c + hookOpCount c ops := by
  induction ops generalizing s log with
  | nil => simp [regRun, hookOpCount]
  | cons op ops ih =>
    cases op with
    | hook d =>
      have h1 := ih (shutdownHookAdd s d) log
      have h2 := count_hookAdd_le s d c
      simp only [regRun, hookOpCount]
      omega
    | unhook d =>
      have h1 := ih (shutdownUnhookDel s d) log
      have h2 : (shutdownUnhookDel s d).count c ≤ s.count c :=
        List.Sublist.count_le (List.erase_sublist d s) c
      simp only [regRun, hookOpCount]
      omega
    | drain regs =>
      simp only [regRun, hookOpCount]
      by_cases hs : s.isEmpty
      · have hnil : s = [] := List.isEmpty_iff.mp hs
        subst hnil
        have h1 := ih [] (log ++ [])
        simp only [exitHandlerDrain, List.isEmpty_nil, if_pos] at h1 ⊢
        simp at h1 ⊢
        omega
      · have h1 := ih (regs.foldl shutdownHookAdd []) (log ++ s)
        have h2 := count_foldl_hookAdd regs [] c
        simp only [exitHandlerDrain, if_neg hs] at h1 ⊢
        rw [List.count_append] at h1
        simp at h2
        omega

/-- C8: the `exitHandler` drain invokes exactly the snapshot of the registry
taken when it starts — a callback not registered at that point (one
unregistered earlier, or one registered only while the drain runs) is not
invoked by it, and registrations made during the drain land in the cleared
registry for a later drain; `shutdownUnhook` removes the callback from the
(duplicate-free) registry; and across any trace of hook/unhook/drain
operations, a callback is invoked at most as many times as it was
registered — so a callback registered once is invoked at most once. -/
theorem shutdownRegistry_at_most_once (s regs : List Nat)
    (run : Nat → Except String Unit) (c : Nat) (ops : List RegOp) :
    ((exitHandlerDrain s run regs).2.1 = s) ∧
    (c ∉ s → c ∉ (exitHandlerDrain s run regs).2.1) ∧
    (c ∉ s → c ∈ (exitHandlerDrain s run regs).1 → c ∈ regs) ∧
    (s.Nodup → c ∉ shutdownUnhookDel s c) ∧
    (((regRun run [] [] ops).2).count c ≤ hookOpCount c ops) := by
  have hsnap : (exitHandlerDrain s run regs).2.1 = s := by
    unfold exitHandlerDrain
    by_cases hs : s.isEmpty
    · rw [if_pos hs]
      simpa using (List.isEmpty_iff.mp hs).symm
    · rw [if_neg hs]
  have hnewreg : ∀ x, x ∈ (exitHandlerDrain s run regs).1 → x ∈ s ∨ x ∈ regs := by
    unfold exitHandlerDrain
    by_cases hs : s.isEmpty
    · rw [if_pos hs]
      exact fun x hx => Or.inl hx
    · rw [if_neg hs]
      intro x hx
      rcases mem_foldl_hookAdd regs [] x hx with h0 | hr
      · simp at h0
      · exact Or.inr hr
  refine ⟨hsnap, ?_, ?_, ?_, ?_⟩
  · intro h
    rw [hsnap]
    exact h
  · intro h hc
    exact (hnewreg c hc).resolve_left h
  · intro hnd
    exact hnd.not_mem_erase
  · have h := regRun_count_le run ops [] [] c
    simpa using h

/-- Witness for C8: a drain of registry `[5]` during which `7` gets
registered does not invoke `7`; unhooking `5` removes it; and a trace that
registers `3` twice (with a drain in between) invokes it at most twice. -/
theorem shutdownRegistry_at_most_once_witness :
    ((7 : Nat) ∉ (exitHandlerDrain [5] runBoom [7]).2.1) ∧
    ((7 : Nat) ∈ [7]) ∧
    ((5 : Nat) ∉ shutdownUnhookDel [5] 5) ∧
    (((regRun runBoom [] []
        [.hook 3, .drain [], .hook 3, .drain []]).2).count 3 ≤
      hookOpCount 3 [.hook 3, .drain [], .hook 3, .drain []]) :=
  ⟨(shutdownRegistry_at_most_once [5] [7] runBoom 7
      [RegOp.hook 3]).2.1 (by decide),
   (shutdownRegistry_at_most_once [5] [7] runBoom 7
      [RegOp.hook 3]).2.2.1 (by decide) (by decide),
   (shutdownRegistry_at_most_once [5] [7] runBoom 5
      [RegOp.hook 3]).2.2.2.1 (by decide),
   (shutdownRegistry_at_most_once [5] [7] runBoom 3
      [RegOp.hook 3, RegOp.drain [], RegOp.hook 3, RegOp.drain []]).2.2.2.2⟩

/-! ## C4: parse strictness for `_parseDevices` -/

/-- Whether a plist value is an array. -/
def isArrayV : PLValue → Bool
  | .varray _ => true
  | _ => false

/-- Whether a plist value is a string. -/
def isStringV : PLValue → Bool
  | .vstring _ => true
  | _ => false

/-- Monadic bind on `Except` over a success. -/
theorem except_bind_ok {ε α β : Type} (a : α) (f : α → Except ε β) :
    (Except.ok a >>= f : Except ε β) = f a := rfl

/-- Monadic bind on `Except` over a failure. -/
theorem except_bind_error {ε α β : Type} (e : ε) (f : α → Except ε β) :
    (Except.error e >>= f : Except ε β) = Except.error e := rfl

/-- Functorial map on `Except` over a success. -/
theorem except_map_ok {ε α β : Type} (a : α) (f : α → β) :
    (f <$> (Except.ok a : Except ε α)) = Except.ok (f a) := rfl

/-- Functorial map on `Except` over a failure. -/
theorem except_map_error {ε α β : Type} (e : ε) (f : α → β) :
    (f <$> (Except.error e : Except ε α)) = (Except.error e : Except ε β) := rfl

/-- `pure` on `Except` is `ok`. -/
theorem except_pure {ε α : Type} (a : α) :
    (pure a : Except ε α) = Except.ok a := rfl

/-- `castAs(ValueArray)` fails on every non-array value. -/
theorem castAsArray_not (v : PLValue) (h : isArrayV v = false) :
    castAsArray v = .error (.castError "array") := by
  cases v <;> first
    | rfl
    | simp [isArrayV] at h

/-- `castAs(ValueString)` fails on every non-string value. -/
theorem castAsString_not (v : PLValue) (h : isStringV v = false) :
    castAsString v = .error (.castError "string") := by
  cases v <;> first
    | rfl
    | simp [isStringV] at h

/-- `castAs(ValueString)` succeeds on a string value. -/
theorem castAsString_vstring (s : String) :
    castAsString (.vstring s) = .ok s := rfl

/-- `castAs(ValueBoolean)` succeeds on a boolean value. -/
theorem castAsBoolean_vboolean (b : Bool) :
    castAsBoolean (.vboolean b) = .ok b := rfl

/-- A well-formed entity dictionary: the two required fields, followed by any
extra bindings. -/
def mkEntity (de : String) (pm : Bool) (extra : List (String × PLValue)) :
    PLValue :=
  .vdict ([("dev-entry", .vstring de), ("potentially-mountable", .vboolean pm)]
    ++ extra)

/-- An entity failing to parse makes the whole `system-entities` loop fail. -/
theorem parseEntities_error_of_mem (entities : List PLValue) (v : PLValue)
    (e : ParseError) (hv : v ∈ entities) (herr : parseDevice v = .error e) :
    ∃ e2, parseEntities entities = .error e2 := by
  induction entities with
  | nil => simp at hv
  | cons w ws ih =>
    rcases List.mem_cons.mp hv with h1 | h2
    · subst h1
      exact ⟨e, by simp [parseEntities, herr, except_bind_ok, except_bind_error, except_map_ok, except_map_error, except_pure, Except.map]⟩
    · cases hw : parseDevice w with
      | error e0 => exact ⟨e0, by simp [parseEntities, hw, except_bind_ok, except_bind_error, except_map_ok, except_map_error, except_pure, Except.map]⟩
      | ok d =>
        obtain ⟨e2, h2e⟩ := ih h2
        exact ⟨e2, by simp [parseEntities, hw, h2e, except_bind_ok, except_bind_error, except_map_ok, except_map_error, except_pure, Except.map]⟩

/-- The four optional string keys of an entity. -/
def optionalKeys : List String :=
  ["content-hint", "unmapped-content-hint", "volume-kind", "mount-point"]

/-- C4: a `system-entities` value that is not an array fails the parse with a
`ParseError`; an entity missing `dev-entry`, or whose `dev-entry` is not a
string, fails with a `ParseError` (and any failing entity fails the whole
parse); each optional key present with a non-string value fails with a
`ParseError`, while an absent optional key parses successfully with the
corresponding device field unset — and a key present with the empty string
yields the field set to the empty string, distinguishable from unset. -/
theorem parseDevices_strictness :
    (∀ (kvs : List (String × PLValue)) (v : PLValue),
      dictGet kvs "system-entities" = some v → isArrayV v = false →
      parseDevices (.vdict kvs) = .error (.castError "array")) ∧
    (∀ kvs : List (String × PLValue), dictGet kvs "dev-entry" = none →
      parseDevice (.vdict kvs) = .error (.missingKey "dev-entry")) ∧
    (∀ (kvs : List (String × PLValue)) (v : PLValue),
      dictGet kvs "dev-entry" = some v → isStringV v = false →
      parseDevice (.vdict kvs) = .error (.castError "string")) ∧
    (∀ (de : String) (pm : Bool) (v : PLValue) (key : String),
      key ∈ optionalKeys → isStringV v = false →
      parseDevice (mkEntity de pm [(key, v)]) = .error (.castError "string")) ∧
    (∀ (de : String) (pm : Bool),
      parseDevice (mkEntity de pm []) =
        .ok ⟨de, pm, none, none, none, none⟩) ∧
    (∀ (de : String) (pm : Bool),
      parseDevice (mkEntity de pm [("content-hint", .vstring "")]) =
        .ok ⟨de, pm, some "", none, none, none⟩ ∧
      parseDevice (mkEntity de pm [("unmapped-content-hint", .vstring "")]) =
        .ok ⟨de, pm, none, some "", none, none⟩ ∧
      parseDevice (mkEntity de pm [("volume-kind", .vstring "")]) =
        .ok ⟨de, pm, none, none, some "", none⟩ ∧
      parseDevice (mkEntity de pm [("mount-point", .vstring "")]) =
        .ok ⟨de, pm, none, none, none, some ""⟩) ∧
    (∀ (entities : List PLValue) (v : PLValue) (e : ParseError),
      v ∈ entities → parseDevice v = .error e →
      ∃ e2, parseEntities entities = .error e2) := by
  refine ⟨?_, ?_, ?_, ?_, ?_, ?_, parseEntities_error_of_mem⟩
  · intro kvs v h hv
    simp [parseDevices, castAsDict, dictGetValue, h, castAsArray_not v hv,
      except_bind_ok, except_bind_error, except_map_ok, except_map_error, except_pure, Except.map]
  · intro kvs h
    simp [parseDevice, castAsDict, dictGetValue, h, except_bind_ok, except_bind_error, except_map_ok, except_map_error, except_pure, Except.map]
  · intro kvs v h hv
    simp [parseDevice, castAsDict, dictGetValue, h, castAsString_not v hv,
      except_bind_ok, except_bind_error, except_map_ok, except_map_error, except_pure, Except.map]
  · intro de pm v key hkey hv
    have hvs := castAsString_not v hv
    simp only [optionalKeys, List.mem_cons, List.not_mem_nil, or_false] at hkey
    rcases hkey with h | h | h | h
    all_goals subst h
    all_goals simp [parseDevice, mkEntity, castAsDict, dictGetValue, dictGet,
      optionalString, castAsString_vstring, castAsBoolean_vboolean, hvs,
      except_bind_ok, except_bind_error, except_map_ok, except_map_error,
      except_pure, Except.map]
  · intro de pm
    simp [parseDevice, mkEntity, castAsDict, dictGetValue, dictGet,
      optionalString, castAsString, castAsBoolean, except_bind_ok, except_bind_error, except_map_ok, except_map_error, except_pure, Except.map]
  · intro de pm
    refine ⟨?_, ?_, ?_, ?_⟩ <;>
      simp [parseDevice, mkEntity, castAsDict, dictGetValue, dictGet,
        optionalString, castAsString, castAsBoolean, except_bind_ok, except_bind_error, except_map_ok, except_map_error, except_pure, Except.map]


/-- Witness for C4: a string-valued `system-entities`, an entity with no
`dev-entry`, a non-string `mount-point`, and a minimal well-formed entity. -/
theorem parseDevices_strictness_witness :
    (parseDevices (.vdict [("system-entities", .vstring "nope")]) =
      .error (.castError "array")) ∧
    (parseDevice (.vdict []) = .error (.missingKey "dev-entry")) ∧
    (parseDevice (mkEntity "/dev/disk42" true [("mount-point", .vinteger 3)]) =
      .error (.castError "string")) ∧
    (parseDevice (mkEntity "/dev/disk42" true []) =
      .ok ⟨"/dev/disk42", true, none, none, none, none⟩) :=
  ⟨parseDevices_strictness.1 [("system-entities", .vstring "nope")]
      (.vstring "nope") rfl rfl,
   parseDevices_strictness.2.1 [] rfl,
   parseDevices_strictness.2.2.2.1 "/dev/disk42" true (.vinteger 3)
      "mount-point" (by simp [optionalKeys]) rfl,
   parseDevices_strictness.2.2.2.2.1 "/dev/disk42" true⟩

end HdiMac
